import Mathlib

/-!
Verification development for the twitch-monkey incremental sync engine.

The Python sources (`models.py`, `download_xqc_logs.py`) are shallowly
embedded below: datetimes become integers counting seconds in the
proleptic Gregorian calendar (matching Python `datetime` arithmetic at
second precision), the decoded JSON value of a log line becomes an
inductive `Json` type, the database session state becomes explicit
record values that functions thread through, and Python exceptions
become an explicit `PyRes` result type.
-/

namespace TwitchMonkey

/-! ## Calendar / datetime model

Python `datetime` values are modelled as civil date-time records; the
instant a record denotes is obtained by `toSecs`, counting seconds from
the epoch 1970-01-01T00:00:00 (proleptic Gregorian, as Python does). -/

/-- A Python `datetime.datetime` value (naive, second precision). -/
structure PyDateTime where
  year : Int
  month : Int
  day : Int
  hour : Int
  minute : Int
  second : Int
deriving DecidableEq, Repr

/-- Gregorian leap-year test, as in the `calendar` rules Python follows. -/
def isLeap (y : Int) : Bool :=
  y.emod 4 == 0 && (y.emod 100 != 0 || y.emod 400 == 0)

/-- Days in a given month of a given year. -/
def daysInMonth (y m : Int) : Int :=
  if m == 2 then (if isLeap y then 29 else 28)
  else if m == 4 || m == 6 || m == 9 || m == 11 then 30
  else 31

/-- Day count of a civil date from 1970-01-01 (Hinnant's civil-from-days
inverse), valid for all proleptic Gregorian dates. -/
def daysFromCivil (y m d : Int) : Int :=
  let y' := if m ≤ 2 then y - 1 else y
  let era := y'.fdiv 400
  let yoe := y' - era * 400
  let mp := (m + 9).emod 12
  let doy := (153 * mp + 2).ediv 5 + d - 1
  let doe := yoe * 365 + yoe.ediv 4 - yoe.ediv 100 + doy
  era * 146097 + doe - 719468

/-- The instant denoted by a datetime, in seconds since the epoch. -/
def toSecs (dt : PyDateTime) : Int :=
  daysFromCivil dt.year dt.month dt.day * 86400
    + dt.hour * 3600 + dt.minute * 60 + dt.second

/-- Models `dt - timedelta(seconds=1)` for a valid datetime: borrow through
minute, hour, day and month boundaries. -/
def predSecond (dt : PyDateTime) : PyDateTime :=
  if dt.second > 0 then { dt with second := dt.second - 1 }
  else if dt.minute > 0 then { dt with minute := dt.minute - 1, second := 59 }
  else if dt.hour > 0 then { dt with hour := dt.hour - 1, minute := 59, second := 59 }
  else if dt.day > 1 then { dt with day := dt.day - 1, hour := 23, minute := 59, second := 59 }
  else
    let ym : Int × Int := if dt.month == 1 then (dt.year - 1, 12) else (dt.year, dt.month - 1)
    { year := ym.1, month := ym.2, day := daysInMonth ym.1 ym.2,
      hour := 23, minute := 59, second := 59 }

/-- Models `dt + relativedelta(months=k)`: shift the month, clamping the day to
the target month's length (dateutil semantics). -/
def addMonths (dt : PyDateTime) (k : Int) : PyDateTime :=
  let m0 := dt.month - 1 + k
  let y := dt.year + m0.fdiv 12
  let m := m0.emod 12 + 1
  { dt with year := y, month := m, day := min dt.day (daysInMonth y m) }

/-- Models `s.replace("Z", "+00:00")` from the Python sources (the pattern is a
single character, so per-character replacement is exact). -/
def pyReplaceZ (s : String) : String :=
  ⟨s.data.foldr
    (fun c acc =>
      if c = 'Z' then '+' :: '0' :: '0' :: ':' :: '0' :: '0' :: acc else c :: acc)
    []⟩

/-- Decimal digit value of a character, if it is a digit. -/
def digitVal (c : Char) : Option Nat :=
  if '0' ≤ c ∧ c ≤ '9' then some (c.toNat - '0'.toNat) else none

/-- Models `_parse_isoformat_date`: exactly `YYYY-MM-DD` with digit
fields and an in-range month and day (a 4-digit year keeps it below
`MAXYEAR`; year 0000 is below `MINYEAR` and rejected). -/
def parseDate : List Char → Option (Int × Int × Int)
  | [a, b, c, d, '-', e, f, '-', g, h] =>
    match [a, b, c, d, e, f, g, h].mapM digitVal with
    | some [a', b', c', d', e', f', g', h'] =>
      let y : Int := ((a' * 1000 + b' * 100 + c' * 10 + d' : Nat) : Int)
      let mo : Int := ((e' * 10 + f' : Nat) : Int)
      let dd : Int := ((g' * 10 + h' : Nat) : Int)
      if 1 ≤ y ∧ 1 ≤ mo ∧ mo ≤ 12 ∧ 1 ≤ dd ∧ dd ≤ daysInMonth y mo then
        some (y, mo, dd)
      else none
    | _ => none
  | _ => none

/-- Models `_parse_hh_mm_ss_ff`: the shapes `HH`, `HH:MM`, `HH:MM:SS`,
`HH:MM:SS.fff` and `HH:MM:SS.ffffff`. The fractional digits are
validated but dropped — this embedding is second-precision. Field
ranges are the caller's concern (in Python they are checked by the
`datetime` and `timezone` constructors). -/
def parseHMSF : List Char → Option (Int × Int × Int)
  | [h1, h2] =>
    match digitVal h1, digitVal h2 with
    | some a, some b => some (((a * 10 + b : Nat) : Int), 0, 0)
    | _, _ => none
  | [h1, h2, ':', m1, m2] =>
    match [h1, h2, m1, m2].mapM digitVal with
    | some [a, b, c, d] =>
      some (((a * 10 + b : Nat) : Int), ((c * 10 + d : Nat) : Int), 0)
    | _ => none
  | [h1, h2, ':', m1, m2, ':', s1, s2] =>
    match [h1, h2, m1, m2, s1, s2].mapM digitVal with
    | some [a, b, c, d, e, f] =>
      some (((a * 10 + b : Nat) : Int), ((c * 10 + d : Nat) : Int),
        ((e * 10 + f : Nat) : Int))
    | _ => none
  | [h1, h2, ':', m1, m2, ':', s1, s2, '.', f1, f2, f3] =>
    match [h1, h2, m1, m2, s1, s2, f1, f2, f3].mapM digitVal with
    | some [a, b, c, d, e, f, _, _, _] =>
      some (((a * 10 + b : Nat) : Int), ((c * 10 + d : Nat) : Int),
        ((e * 10 + f : Nat) : Int))
    | _ => none
  | [h1, h2, ':', m1, m2, ':', s1, s2, '.', f1, f2, f3, f4, f5, f6] =>
    match [h1, h2, m1, m2, s1, s2, f1, f2, f3, f4, f5, f6].mapM digitVal with
    | some [a, b, c, d, e, f, _, _, _, _, _, _] =>
      some (((a * 10 + b : Nat) : Int), ((c * 10 + d : Nat) : Int),
        ((e * 10 + f : Nat) : Int))
    | _ => none
  | _ => none

/-- Splits a character list at the first occurrence of `c`
(`str.find`), returning the parts before and after it. -/
def splitAtChar (c : Char) : List Char → Option (List Char × List Char)
  | [] => none
  | x :: xs =>
    if x = c then some ([], xs)
    else (splitAtChar c xs).map (fun p => (x :: p.1, p.2))

/-- Models the offset split of `_parse_isoformat_time`:
`tstr.find(minus) + 1 or tstr.find(plus) + 1` — the first `-` anywhere
in the time string, else the first `+`, marks the UTC-offset suffix.
Returns the time part, the offset sign, and the offset string. -/
def splitTz (l : List Char) : Option (List Char × Int × List Char) :=
  match splitAtChar '-' l with
  | some (a, b) => some (a, -1, b)
  | none =>
    match splitAtChar '+' l with
    | some (a, b) => some (a, 1, b)
    | none => none

/-- Models `datetime.fromisoformat` as the repository uses it (the code
targets the pre-3.11 grammar — it replaces `Z` itself precisely because
that `fromisoformat` lacks `Z` support): a `YYYY-MM-DD` date,
optionally followed by one arbitrary separator character and a time
`HH[:MM[:SS[.fff[fff]]]]`, optionally followed by a UTC offset whose
string has length 5, 8 or 15 (`±HH:MM[:SS[.ffffff]]`) and whose value
is strictly below one day. Returns the denoted instant in seconds —
the offset is subtracted; fractional seconds are dropped (the
embedding is second-precision) — or `none` for the raised
`ValueError`. -/
def parseIso (s : String) : Option Int :=
  let l := s.data
  match parseDate (l.take 10) with
  | none => none
  | some (y, mo, dd) =>
    let base := daysFromCivil y mo dd * 86400
    match l.drop 10 with
    | [] => some base
    | _sep :: tstr =>
      match splitTz tstr with
      | none =>
        match parseHMSF tstr with
        | none => none
        | some (h, mi, se) =>
          if h ≤ 23 ∧ mi ≤ 59 ∧ se ≤ 59 then
            some (base + h * 3600 + mi * 60 + se)
          else none
      | some (timestr, sign, tzstr) =>
        match parseHMSF timestr with
        | none => none
        | some (h, mi, se) =>
          if h ≤ 23 ∧ mi ≤ 59 ∧ se ≤ 59 then
            if tzstr.length = 5 ∨ tzstr.length = 8 ∨ tzstr.length = 15 then
              match parseHMSF tzstr with
              | none => none
              | some (oh, om, os) =>
                let off := sign * (oh * 3600 + om * 60 + os)
                if -86400 < off ∧ off < 86400 then
                  some (base + h * 3600 + mi * 60 + se - off)
                else none
            else none
          else none

/-! ## JSON values -/

/-- A decoded JSON value, the result of a successful `json.loads`. -/
inductive Json where
  | null
  | bool (b : Bool)
  | num (n : Int)
  | str (s : String)
  | arr (elems : List Json)
  | obj (fields : List (String × Json))

mutual

/-- Structural equality of decoded JSON values (Python `==`). -/
def jsonBeq : Json → Json → Bool
  | .null, .null => true
  | .bool a, .bool b => a == b
  | .num a, .num b => a == b
  | .str a, .str b => a == b
  | .arr a, .arr b => jsonListBeq a b
  | .obj a, .obj b => jsonFieldsBeq a b
  | _, _ => false

/-- Elementwise equality of JSON arrays. -/
def jsonListBeq : List Json → List Json → Bool
  | [], [] => true
  | x :: xs, y :: ys => jsonBeq x y && jsonListBeq xs ys
  | _, _ => false

/-- Pairwise equality of JSON object field lists. -/
def jsonFieldsBeq : List (String × Json) → List (String × Json) → Bool
  | [], [] => true
  | (k1, v1) :: xs, (k2, v2) :: ys => k1 == k2 && jsonBeq v1 v2 && jsonFieldsBeq xs ys
  | _, _ => false

end

/-- Python truthiness of a JSON-decoded value. -/
def pyTruthy : Json → Bool
  | .null => false
  | .bool b => b
  | .num n => n != 0
  | .str s => s != ""
  | .arr l => !l.isEmpty
  | .obj l => !l.isEmpty

/-- The `dict.get` lookup on the field list of a decoded object. -/
def jlookup (kvs : List (String × Json)) (k : String) : Option Json :=
  (kvs.find? (fun p => p.1 == k)).map (fun p => p.2)

/-! ## Record parsing (`ChatMessage.from_json_line`)

A raw log line is abstracted by the outcome of `json.loads` on it:
`none` stands for a line whose JSON decoding raises `JSONDecodeError`,
`some v` for a line decoding to the value `v`. Python exceptions are
made explicit with `PyRes`. -/

/-- The Python exceptions relevant to the parsing and persistence code
paths. -/
inductive PyExn where
  | jsonDecodeError
  | valueError
  | keyError
  | attributeError
  | integrityError
deriving DecidableEq, Repr

/-- Outcome of running a piece of Python code: a value, or a raised
exception. -/
inductive PyRes (α : Type) where
  | ok (a : α)
  | exn (e : PyExn)
deriving DecidableEq, Repr

/-- Whether a result is a normal (non-raising) return. -/
def PyRes.isOk {α : Type} : PyRes α → Bool
  | .ok _ => true
  | .exn _ => false

/-- A `ChatMessage` row as built by `from_json_line` / stored by the
writer. Fields taken from the decoded JSON keep their decoded `Json`
value (Python stores whatever `data.get` returned); the parsed
timestamp is an instant or `None`. -/
structure Msg where
  channel_id : Int
  message_id : Json
  text : Json
  display_name : Json
  timestamp : Option Int
  user_id : Json
  color : Json
  subscriber : Json
  badges : Json
  room_id : Json
  tags : Json
  tmi_sent_ts : Json

/-- Models `ChatMessage.from_json_line(json_line, channel_id)` (models.py
lines 97-128). The body runs under a `try` that catches only
`JSONDecodeError`, `ValueError` and `KeyError` (returning `None`, i.e.
`.ok none`); any other exception — in particular the `AttributeError`
raised by `.get` on a non-dict or `.replace` on a non-string —
propagates to the caller. -/
def from_json_line (json_line : Option Json) (channel_id : Int) : PyRes (Option Msg) :=
  match json_line with
  | none => .ok none
  | some data =>
    match data with
    | .obj kvs =>
      let timestamp_str := (jlookup kvs "timestamp").getD (.str "")
      let tsRes : PyRes (Option Int) :=
        if pyTruthy timestamp_str then
          match timestamp_str with
          | .str s =>
            match parseIso (pyReplaceZ s) with
            | some t => .ok (some t)
            | none => .exn .valueError
          | _ => .exn .attributeError
        else .ok none
      match tsRes with
      | .exn .valueError => .ok none
      | .exn e => .exn e
      | .ok timestamp =>
        let tags := (jlookup kvs "tags").getD (.obj [])
        match tags with
        | .obj tkvs =>
          .ok (some {
            channel_id := channel_id,
            message_id := (jlookup kvs "id").getD (.str ""),
            text := (jlookup kvs "text").getD (.str ""),
            display_name := (jlookup kvs "displayName").getD (.str ""),
            timestamp := timestamp,
            user_id := (jlookup tkvs "user-id").getD (.str ""),
            color := (jlookup tkvs "color").getD (.str ""),
            subscriber := (jlookup tkvs "subscriber").getD (.str ""),
            badges := (jlookup tkvs "badges").getD (.str ""),
            room_id := (jlookup tkvs "room-id").getD (.str ""),
            tags := tags,
            tmi_sent_ts := (jlookup tkvs "tmi-sent-ts").getD (.str "")
          })
        | _ => .exn .attributeError
    | _ => .exn .attributeError

/-- The per-window line loop of `fetch_logs` (download_xqc_logs.py
lines 134-139): each complete non-blank line is handed to
`from_json_line`; a `None` return is skipped and the loop continues; a
raised exception aborts the loop (it is caught only by the
whole-window handler). Returns the accumulated `messages_batch`. -/
def processLines (lines : List (Option Json)) (channel_id : Int) : PyRes (List Msg) :=
  match lines with
  | [] => .ok []
  | l :: rest =>
    match from_json_line l channel_id with
    | .ok (some m) =>
      match processLines rest channel_id with
      | .ok ms => .ok (m :: ms)
      | .exn e => .exn e
    | .ok none => processLines rest channel_id
    | .exn e => .exn e

/-- The record produced by a parse outcome, if any. -/
def parsedMsg (r : PyRes (Option Msg)) : Option Msg :=
  match r with
  | .ok o => o
  | .exn _ => none

/-! ## Progress store (`SyncCursor`, `Channel`, `update_cursor`,
`get_sync_start_date`)

The database rows relevant to one channel are modelled explicitly;
`datetime.utcnow()` becomes an explicit `now` argument. -/

/-- A `sync_cursor` row. -/
structure SyncCursor where
  channel_id : Int
  last_indexed_timestamp : Int
  last_sync : Int
  total_messages_indexed : Int
deriving DecidableEq, Repr

/-- The mutable part of a `channels` row touched by `update_cursor`. -/
structure Channel where
  total_messages : Int
  last_activity : Option Int
deriving DecidableEq, Repr

/-- The session-visible state for one channel: its cursor row (if any)
and its channel row (if any). -/
structure DbState where
  cursor : Option SyncCursor
  channel : Option Channel
deriving DecidableEq, Repr

/-- Models `update_cursor(session, channel_id, last_timestamp, messages_added)`
(models.py lines 156-182). If a cursor exists, its fields — including
`last_sync` and `total_messages_indexed` — are changed only inside the
`last_timestamp > cursor.last_indexed_timestamp` guard; otherwise a
fresh cursor row is created. The channel row's `last_activity` and
`total_messages` are updated unconditionally afterwards. -/
def update_cursor (st : DbState) (channel_id last_timestamp messages_added now : Int) :
    DbState :=
  let cursor : Option SyncCursor :=
    match st.cursor with
    | some c =>
      if last_timestamp > c.last_indexed_timestamp then
        some { c with
          last_indexed_timestamp := last_timestamp,
          last_sync := now,
          total_messages_indexed := c.total_messages_indexed + messages_added }
      else some c
    | none =>
      some { channel_id := channel_id,
             last_indexed_timestamp := last_timestamp,
             last_sync := now,
             total_messages_indexed := messages_added }
  let channel : Option Channel :=
    match st.channel with
    | some ch =>
      some { last_activity := some now,
             total_messages := ch.total_messages + messages_added }
    | none => none
  { cursor := cursor, channel := channel }

/-- A sequence of `update_cursor` calls, each given as
`(last_timestamp, messages_added, now)`. -/
def applyUpdates (st : DbState) (channel_id : Int) (calls : List (Int × Int × Int)) :
    DbState :=
  calls.foldl (fun s c => update_cursor s channel_id c.1 c.2.1 c.2.2) st

/-- The persisted message store: the rows of `chat_messages` for one
channel. -/
abbrev Store := List Msg

/-- The duplicate check of `insert_messages_batch` (models.py lines
300-315): by `(channel_id, message_id, timestamp)` when the candidate
has a non-empty `message_id`, else by
`(channel_id, timestamp, text, display_name)`. -/
def findExisting (store : Store) (channel_id : Int) (m : Msg) : Option Msg :=
  if pyTruthy m.message_id then
    store.find? (fun r =>
      r.channel_id == channel_id &&
      jsonBeq r.message_id m.message_id &&
      r.timestamp == m.timestamp)
  else
    store.find? (fun r =>
      r.channel_id == channel_id &&
      r.timestamp == m.timestamp &&
      jsonBeq r.text m.text &&
      jsonBeq r.display_name m.display_name)

/-- Loop state of `insert_messages_batch`: the running
`inserted_count`, `latest_timestamp`, and the session-visible store. -/
structure BatchAcc where
  inserted_count : Nat
  latest_timestamp : Option Int
  store : Store

/-- One iteration of the per-message loop (models.py lines 299-322): a
candidate with an existing match is skipped entirely; otherwise its
`channel_id` is set, it is added to the session, the count is bumped,
and — only when it has a timestamp — `latest_timestamp` becomes
`max(latest_timestamp or ts, ts)`. -/
def insertOne (channel_id : Int) (acc : BatchAcc) (m : Msg) : BatchAcc :=
  match findExisting acc.store channel_id m with
  | some _ => acc
  | none =>
    let inserted : Msg := { m with channel_id := channel_id }
    let latest : Option Int :=
      match m.timestamp with
      | some ts => some (max (acc.latest_timestamp.getD ts) ts)
      | none => acc.latest_timestamp
    { inserted_count := acc.inserted_count + 1,
      latest_timestamp := latest,
      store := acc.store ++ [inserted] }

/-- The sort key of `messages.sort(key=...)`:
`x.timestamp if x.timestamp else datetime.min`. -/
def pySortKey (m : Msg) : Int :=
  m.timestamp.getD (toSecs ⟨1, 1, 1, 0, 0, 0⟩)

/-- Stable insertion of a message into an already-sorted list: it goes
before the first strictly-later element and after equal keys, matching
the stability of Python's sort. -/
def pyInsertSorted (m : Msg) : List Msg → List Msg
  | [] => [m]
  | y :: ys => if pySortKey m ≤ pySortKey y then m :: y :: ys else y :: pyInsertSorted m ys

/-- Models `messages.sort(key=lambda x: x.timestamp if x.timestamp else
datetime.min)`: a stable sort by `pySortKey`. -/
def pySort : List Msg → List Msg
  | [] => []
  | x :: xs => pyInsertSorted x (pySort xs)

/-- Split a list into consecutive chunks of length `k`, as
`range(0, len(messages), batch_size)` slices it. -/
def listChunks (l : List Msg) (k : Nat) : List (List Msg) :=
  if h : l.isEmpty || k == 0 then (if l.isEmpty then [] else [l])
  else l.take k :: listChunks (l.drop k) k
termination_by l.length
decreasing_by
  rw [Bool.or_eq_true, not_or, List.isEmpty_iff, beq_iff_eq] at h
  simpa [List.length_drop] using
    Nat.sub_lt (List.length_pos.mpr h.1) (Nat.pos_of_ne_zero h.2)

/-- Models `insert_messages_batch(session, messages, channel_id, batch_size)`
(models.py lines 284-327): empty input short-circuits to `(0, None)`;
otherwise the messages are sorted by timestamp and processed chunk by
chunk (each chunk ending in a commit of the same session state),
returning `(inserted_count, latest_timestamp)` together with the
resulting store. -/
def insert_messages_batch (store : Store) (messages : List Msg) (channel_id : Int)
    (batch_size : Nat) : BatchAcc :=
  if messages.isEmpty then ⟨0, none, store⟩
  else
    (listChunks (pySort messages) batch_size).foldl
      (fun acc chunk => chunk.foldl (insertOne channel_id) acc)
      ⟨0, none, store⟩

/-- Models the flush-level behaviour of one candidate of
`insert_messages_batch` under the real schema, where the `timestamp`
column is `nullable=False` (models.py:66): a duplicate is skipped, a
timestamped candidate is inserted exactly as in `insertOne`, and a
timestampless candidate is added to the session only for
`IntegrityError` to be raised when the pending row is flushed — which
happens before anything else completes, at the next candidate's
existence query (autoflush) or at the chunk's commit. -/
def insertOneDb (channel_id : Int) (acc : BatchAcc) (m : Msg) : PyRes BatchAcc :=
  match findExisting acc.store channel_id m with
  | some _ => .ok acc
  | none =>
    match m.timestamp with
    | none => .exn .integrityError
    | some ts =>
      .ok { inserted_count := acc.inserted_count + 1,
            latest_timestamp := some (max (acc.latest_timestamp.getD ts) ts),
            store := acc.store ++ [{ m with channel_id := channel_id }] }

/-- The per-message loop of `insert_messages_batch` under the NOT NULL
constraint: the first flushed NULL-timestamp row raises and aborts the
loop. -/
def insertLoopDb (channel_id : Int) : BatchAcc → List Msg → PyRes BatchAcc
  | acc, [] => .ok acc
  | acc, m :: rest =>
    match insertOneDb channel_id acc m with
    | .ok acc1 => insertLoopDb channel_id acc1 rest
    | .exn e => .exn e

/-- Models `insert_messages_batch` as executed against the real schema:
on batches whose records all carry timestamps it returns exactly the
result of `insert_messages_batch` (see the agreement theorem below),
and it raises `IntegrityError` as soon as a non-duplicate timestampless
record must be flushed. Chunk boundaries only decide how much
in-flight work the caller's rollback discards on failure; they do not
change the returned outcome, because the whole loop aborts at the
first raising flush — so the early-exit loop runs over the whole
sorted batch. -/
def insert_messages_batch_db (store : Store) (messages : List Msg)
    (channel_id : Int) (batch_size : Nat) : PyRes BatchAcc :=
  if messages.isEmpty then .ok ⟨0, none, store⟩
  else insertLoopDb channel_id ⟨0, none, store⟩ (pySort messages)

/-! ## Window planner (`months` and the `fetch_logs` window) -/

/-- The month sequence of download_xqc_logs.py lines 71-73:
`start_month = start_datetime.replace(day=1)`,
`end_month = end_datetime.replace(day=1)`, then one entry per `i` in
`range((end.year - start.year) * 12 + end.month - start.month + 1)`
(an empty range when that count is not positive). `.replace(day=1)`
keeps the time of day. -/
def months (start_datetime end_datetime : PyDateTime) : List PyDateTime :=
  let start_month := { start_datetime with day := 1 }
  let end_month := { end_datetime with day := 1 }
  let n : Int :=
    (end_month.year - start_month.year) * 12 + end_month.month - start_month.month + 1
  (List.range n.toNat).map (fun i => addMonths start_month (Int.ofNat i))

/-- A fetch window, given by its `from` and `to` request instants. -/
structure Window where
  fromDate : PyDateTime
  toDate : PyDateTime
deriving DecidableEq, Repr

/-- The window computed by `fetch_logs` for one month entry
(download_xqc_logs.py lines 95-97):
`from` is `strftime("%Y-%m-%dT00:00:00Z")` — the entry's date with the
time part hardcoded to midnight — and `to` is
`(entry + relativedelta(months=1) - timedelta(seconds=1))` formatted
with the time part hardcoded to `23:59:59`. -/
def windowOf (current : PyDateTime) : Window :=
  let fromDate := { current with hour := 0, minute := 0, second := 0 }
  let next_month := addMonths current 1
  let toBase := predSecond next_month
  let toDate := { toBase with hour := 23, minute := 59, second := 59 }
  ⟨fromDate, toDate⟩

/-! ## Sample values used by concrete witnesses -/

/-- A sample parsed record carrying no timestamp. -/
def msgC9 : Msg :=
  { channel_id := 0, message_id := .str "", text := .str "late",
    display_name := .str "eve", timestamp := none,
    user_id := .str "", color := .str "", subscriber := .str "",
    badges := .str "", room_id := .str "", tags := .obj [],
    tmi_sent_ts := .str "" }

/-- A batch of 100 decoded lines: 97 well-formed objects followed by 3
lines whose JSON decoding fails. -/
def lines100 : List (Option Json) :=
  List.replicate 97 (some (Json.obj [("text", Json.str "hello")])) ++
    List.replicate 3 none

/-! ## Theorems -/

mutual

theorem jsonBeq_refl : (j : Json) → jsonBeq j j = true
  | .null => rfl
  | .bool b => by simp [jsonBeq]
  | .num n => by simp [jsonBeq]
  | .str s => by simp [jsonBeq]
  | .arr l => by simpa [jsonBeq] using jsonListBeq_refl l
  | .obj l => by simpa [jsonBeq] using jsonFieldsBeq_refl l

theorem jsonListBeq_refl : (l : List Json) → jsonListBeq l l = true
  | [] => rfl
  | x :: xs => by simp [jsonListBeq, jsonBeq_refl x, jsonListBeq_refl xs]

theorem jsonFieldsBeq_refl : (l : List (String × Json)) → jsonFieldsBeq l l = true
  | [] => rfl
  | (k, v) :: xs => by simp [jsonFieldsBeq, jsonBeq_refl v, jsonFieldsBeq_refl xs]

end

/-- C3: the planned windows are claimed to be contiguous and
non-overlapping regardless of the resume point's time of day; the code
violates this. For the resume point 2024-01-20T09:00:00 (a typical
checkpoint-minus-overlap instant) and end date 2024-03-05, the January
window's `to` instant is 2024-02-01T23:59:59 — a full day INTO the
February window, whose `from` instant is 2024-02-01T00:00:00 — because
`fetch_logs` formats `next_month - 1 second` with a hardcoded
`23:59:59` time part that is only consistent with a midnight
time-of-day. The windows at this input are evaluated exactly, and the
first window's `to` is shown not to precede the second window's
`from`. -/
theorem fetch_windows_overlap_on_nonmidnight_resume :
    (months ⟨2024, 1, 20, 9, 0, 0⟩ ⟨2024, 3, 5, 0, 0, 0⟩).map windowOf =
      [⟨⟨2024, 1, 1, 0, 0, 0⟩, ⟨2024, 2, 1, 23, 59, 59⟩⟩,
       ⟨⟨2024, 2, 1, 0, 0, 0⟩, ⟨2024, 3, 1, 23, 59, 59⟩⟩,
       ⟨⟨2024, 3, 1, 0, 0, 0⟩, ⟨2024, 4, 1, 23, 59, 59⟩⟩] ∧
    ¬ toSecs (⟨2024, 2, 1, 23, 59, 59⟩ : PyDateTime) <
        toSecs (⟨2024, 2, 1, 0, 0, 0⟩ : PyDateTime) ∧
    toSecs (⟨2024, 2, 1, 0, 0, 0⟩ : PyDateTime) <
      toSecs (⟨2024, 2, 1, 23, 59, 59⟩ : PyDateTime) := by
  refine ⟨by decide, by decide, by decide⟩

/-- C8 counterexample: with the resume point 2024-03-20 strictly after
the until date 2024-03-05 but in the same calendar month, the planned
sequence is NOT empty — the code plans one window (March 2024),
because the month count `(Δyear)*12 + Δmonth + 1` is `1`, not `≤ 0`. -/
theorem months_nonempty_same_month_reversed :
    months ⟨2024, 3, 20, 0, 0, 0⟩ ⟨2024, 3, 5, 0, 0, 0⟩ ≠ [] ∧
    months ⟨2024, 3, 20, 0, 0, 0⟩ ⟨2024, 3, 5, 0, 0, 0⟩ =
      [⟨2024, 3, 1, 0, 0, 0⟩] := by
  refine ⟨by decide, by decide⟩

/-- C8 (amended): the planned window sequence is empty exactly when the
calendar month of the until date strictly precedes the calendar month
of the resume point; in particular, when `resumeFrom > until` fall in
the same calendar month, one window (that month) is still planned, and
no error is raised in either case. -/
theorem months_empty_iff (s e : PyDateTime) :
    months s e = [] ↔ 12 * e.year + e.month < 12 * s.year + s.month := by
  unfold months
  rw [List.map_eq_nil_iff, List.range_eq_nil, Int.toNat_eq_zero]
  dsimp only
  omega

/-- A non-advancing `update_cursor` call leaves the cursor row
untouched: every mutation of it sits inside the strict-increase
guard. -/
theorem update_cursor_keeps_cursor (st : DbState) (cid t a n : Int)
    (c : SyncCursor) (h : st.cursor = some c)
    (hle : t ≤ c.last_indexed_timestamp) :
    (update_cursor st cid t a n).cursor = some c := by
  unfold update_cursor
  rw [h]
  simp [not_lt_of_le hle]

/-- One `update_cursor` call on a state with an existing cursor leaves
some cursor whose timestamp is the maximum of the stored and candidate
timestamps. -/
theorem update_cursor_step (st : DbState) (cid t a n : Int) (c : SyncCursor)
    (h : st.cursor = some c) :
    ∃ c', (update_cursor st cid t a n).cursor = some c' ∧
      c'.last_indexed_timestamp = max c.last_indexed_timestamp t := by
  unfold update_cursor
  rw [h]
  dsimp only
  by_cases hgt : t > c.last_indexed_timestamp
  · refine ⟨{ c with
      last_indexed_timestamp := t,
      last_sync := n,
      total_messages_indexed := c.total_messages_indexed + a }, by simp [hgt], ?_⟩
    simp [max_eq_right (le_of_lt hgt)]
  · exact ⟨c, by simp [hgt], by simp [max_eq_left (le_of_not_lt hgt)]⟩

/-- A sequence of `update_cursor` calls folds `max` over the passed
timestamps, starting from the stored one. -/
theorem applyUpdates_ts (cid : Int) :
    ∀ (calls : List (Int × Int × Int)) (st : DbState) (c : SyncCursor),
      st.cursor = some c →
      ∃ c', (applyUpdates st cid calls).cursor = some c' ∧
        c'.last_indexed_timestamp =
          calls.foldl (fun acc p => max acc p.1) c.last_indexed_timestamp := by
  intro calls
  induction calls with
  | nil => intro st c h; exact ⟨c, h, rfl⟩
  | cons p rest ih =>
    intro st c h
    obtain ⟨c1, hc1, hts1⟩ := update_cursor_step st cid p.1 p.2.1 p.2.2 c h
    obtain ⟨c', hc', hts'⟩ := ih (update_cursor st cid p.1 p.2.1 p.2.2) c1 hc1
    exact ⟨c', hc', by rw [hts', hts1, List.foldl_cons]⟩

/-- C1 counterexample: starting from a state whose cursor already holds
timestamp 100, a sequence consisting of one `update_cursor` call with
timestamp 50 leaves the stored timestamp at 100, not at 50 — yet 50 is
the maximum timestamp ever passed in the sequence. The stored value
therefore does not equal the maximum passed timestamp for every
starting state. -/
theorem update_cursor_not_max_of_passed :
    (applyUpdates ⟨some ⟨1, 100, 0, 0⟩, none⟩ 1 [(50, 0, 0)]).cursor.map
        SyncCursor.last_indexed_timestamp ≠ some 50 ∧
    (applyUpdates ⟨some ⟨1, 100, 0, 0⟩, none⟩ 1 [(50, 0, 0)]).cursor.map
        SyncCursor.last_indexed_timestamp = some 100 ∧
    [(50, 0, 0)].foldl (fun acc (p : Int × Int × Int) => max acc p.1) 50 = 50 := by
  refine ⟨by decide, by decide, by decide⟩

/-- C1 (amended): after any sequence of `update_cursor` calls the
stored timestamp equals the maximum of the starting stored timestamp
and every timestamp passed (a fold of `max`, hence independent of call
order); starting with no cursor and a nonempty sequence it equals the
maximum timestamp ever passed; and a single call changes the stored
cursor only when the candidate strictly exceeds the stored
timestamp. -/
theorem update_cursor_monotone_max (cid : Int) :
    (∀ (st : DbState) (c : SyncCursor) (calls : List (Int × Int × Int)),
      st.cursor = some c →
      (applyUpdates st cid calls).cursor.map SyncCursor.last_indexed_timestamp =
        some (calls.foldl (fun acc p => max acc p.1) c.last_indexed_timestamp)) ∧
    (∀ (st : DbState) (t a n : Int) (rest : List (Int × Int × Int)),
      st.cursor = none →
      (applyUpdates st cid ((t, a, n) :: rest)).cursor.map
          SyncCursor.last_indexed_timestamp =
        some (rest.foldl (fun acc p => max acc p.1) t)) ∧
    (∀ (st : DbState) (c : SyncCursor) (t a n : Int),
      st.cursor = some c → t ≤ c.last_indexed_timestamp →
      (update_cursor st cid t a n).cursor = some c) := by
  refine ⟨?_, ?_, ?_⟩
  · intro st c calls h
    obtain ⟨c', hc', hts⟩ := applyUpdates_ts cid calls st c h
    rw [hc']
    simp [hts]
  · intro st t a n rest h
    have hstep : (update_cursor st cid t a n).cursor =
        some ⟨cid, t, n, a⟩ := by
      unfold update_cursor
      rw [h]
    obtain ⟨c', hc', hts⟩ :=
      applyUpdates_ts cid rest (update_cursor st cid t a n) ⟨cid, t, n, a⟩ hstep
    have hdef : applyUpdates st cid ((t, a, n) :: rest) =
        applyUpdates (update_cursor st cid t a n) cid rest := rfl
    rw [hdef, hc']
    simp [hts]
  · intro st c t a n h hle
    unfold update_cursor
    rw [h]
    simp [not_lt_of_le hle]

/-- C1 witness: from a cursor holding 10, the calls 30 then 20 leave
the stored timestamp at 30, the maximum ever passed. -/
theorem update_cursor_monotone_max_witness :
    (applyUpdates ⟨some ⟨1, 10, 0, 0⟩, none⟩ 1 [(30, 0, 0), (20, 0, 0)]).cursor.map
      SyncCursor.last_indexed_timestamp = some 30 := by
  have h := (update_cursor_monotone_max 1).1 ⟨some ⟨1, 10, 0, 0⟩, none⟩
    ⟨1, 10, 0, 0⟩ [(30, 0, 0), (20, 0, 0)] rfl
  rw [h]
  decide

/-- C5 counterexample: with an existing cursor at timestamp 100 (with
`last_sync = 5` and cumulative total 0), a call with candidate
timestamp 50, `messages_added = 7` and wall clock 999 leaves the
cursor row entirely unchanged: the cumulative total stays 0 (it is not
increased by 7) and `last_sync` stays 5 (it is not refreshed to 999),
because both mutations sit inside the timestamp-advance guard. -/
theorem update_cursor_noop_keeps_counters :
    (update_cursor ⟨some ⟨1, 100, 5, 0⟩, some ⟨0, none⟩⟩ 1 50 7 999).cursor =
      some ⟨1, 100, 5, 0⟩ ∧
    (0 : Int) ≠ 0 + 7 ∧ (5 : Int) ≠ 999 := by
  refine ⟨by decide, by decide, by decide⟩

/-- C5 (amended): the cursor's cumulative indexed total and `last_sync`
are updated only when the candidate timestamp strictly exceeds the
stored one — a non-advancing call leaves the cursor row unchanged
(the unconditional accumulation happens on the Channel row instead,
see the frame-effect theorem). -/
theorem update_cursor_counters_amended (st : DbState) (cid t a n : Int)
    (c : SyncCursor) (h : st.cursor = some c) :
    (t ≤ c.last_indexed_timestamp → (update_cursor st cid t a n).cursor = some c) ∧
    (c.last_indexed_timestamp < t →
      (update_cursor st cid t a n).cursor =
        some { c with
          last_indexed_timestamp := t,
          last_sync := n,
          total_messages_indexed := c.total_messages_indexed + a }) := by
  constructor
  · intro hle
    exact update_cursor_keeps_cursor st cid t a n c h hle
  · intro hlt
    unfold update_cursor
    rw [h]
    simp [hlt]

/-- C5 witness: the non-advancing concrete call of the counterexample,
derived from the amended theorem. -/
theorem update_cursor_counters_amended_witness :
    (update_cursor ⟨some ⟨1, 100, 5, 0⟩, some ⟨0, none⟩⟩ 1 50 7 999).cursor =
      some ⟨1, 100, 5, 0⟩ :=
  (update_cursor_counters_amended ⟨some ⟨1, 100, 5, 0⟩, some ⟨0, none⟩⟩ 1 50 7 999
    ⟨1, 100, 5, 0⟩ rfl).1 (by decide)

/-- C10: every `update_cursor` call on a state with a channel row adds
`messages_added` to `channel.total_messages` and refreshes
`channel.last_activity` to the call's wall clock, unconditionally; and
when the candidate timestamp does not advance the cursor, the cursor's
cumulative indexed total is left unchanged — so the channel-level and
cursor-level cumulative counts diverge on non-advancing updates. -/
theorem update_cursor_channel_frame (st : DbState) (cid t a n : Int)
    (ch : Channel) (c : SyncCursor)
    (hch : st.channel = some ch) (hc : st.cursor = some c) :
    (update_cursor st cid t a n).channel =
      some { total_messages := ch.total_messages + a, last_activity := some n } ∧
    (t ≤ c.last_indexed_timestamp →
      (update_cursor st cid t a n).cursor.map SyncCursor.total_messages_indexed =
        some c.total_messages_indexed) := by
  constructor
  · unfold update_cursor
    rw [hch]
  · intro hle
    rw [update_cursor_keeps_cursor st cid t a n c hc hle]
    simp

/-- C10 witness: a non-advancing call with `messages_added = 7` bumps
the channel total from 3 to 10 and refreshes its activity time, while
the cursor total stays 0. -/
theorem update_cursor_channel_frame_witness :
    (update_cursor ⟨some ⟨1, 100, 5, 0⟩, some ⟨3, none⟩⟩ 1 50 7 999).channel =
      some ⟨3 + 7, some 999⟩ ∧
    (update_cursor ⟨some ⟨1, 100, 5, 0⟩, some ⟨3, none⟩⟩ 1 50 7 999).cursor.map
      SyncCursor.total_messages_indexed = some 0 := by
  have h := update_cursor_channel_frame ⟨some ⟨1, 100, 5, 0⟩, some ⟨3, none⟩⟩
    1 50 7 999 ⟨3, none⟩ ⟨1, 100, 5, 0⟩ rfl rfl
  exact ⟨h.1, h.2 (by decide)⟩

/-- The length of a `filterMap` is the number of elements on which the
function succeeds. -/
theorem length_filterMap_eq_countP {α β : Type} (g : α → Option β) (l : List α) :
    (l.filterMap g).length = l.countP (fun x => (g x).isSome) := by
  induction l with
  | nil => rfl
  | cons x xs ih =>
    cases hx : g x with
    | none => simp [List.filterMap_cons, hx, List.countP_cons, ih]
    | some b => simp [List.filterMap_cons, hx, List.countP_cons, ih]

/-- When no line in a batch raises, the loop returns exactly the
records of all lines that parse. -/
theorem processLines_ok_of_no_raise (cid : Int) :
    ∀ lines : List (Option Json),
      (∀ l ∈ lines, (from_json_line l cid).isOk = true) →
      processLines lines cid =
        .ok (lines.filterMap (fun l => parsedMsg (from_json_line l cid))) := by
  intro lines
  induction lines with
  | nil => intro _; rfl
  | cons l rest ih =>
    intro h
    have hl := h l (List.mem_cons_self l rest)
    have hrest := ih (fun x hx => h x (List.mem_cons_of_mem l hx))
    cases hfj : from_json_line l cid with
    | exn e => rw [hfj] at hl; simp [PyRes.isOk] at hl
    | ok o =>
      cases o with
      | some m =>
        simp [processLines, hfj, hrest, List.filterMap_cons, parsedMsg]
      | none =>
        simp [processLines, hfj, hrest, List.filterMap_cons, parsedMsg]

/-- C6 counterexample: the line `{"tags": [1]}` is valid JSON, yet
`from_json_line` raises an uncaught `AttributeError` (only
`JSONDecodeError`, `ValueError` and `KeyError` are caught), because
`tags.get` is called on a list; the raised exception aborts the line
loop, so the following well-formed line `{"text": "hi"}` is never
parsed — a single corrupt line can abort the window's processing. -/
theorem from_json_line_uncaught_attribute_error :
    from_json_line (some (.obj [("tags", .arr [.num 1])])) 1 =
      .exn .attributeError ∧
    processLines [some (.obj [("tags", .arr [.num 1])]),
      some (.obj [("text", .str "hi")])] 1 = .exn .attributeError :=
  ⟨rfl, rfl⟩

/-- C6 (amended): for every line whose parse does not raise — which
covers invalid JSON (`JSONDecodeError` is caught and yields skip) and
malformed timestamps, but not object-shape errors such as a non-dict
`tags` value — the loop skips malformed lines and continues, and the
batch holds exactly one record per line that parses: its length is the
count of well-formed lines. A JSON-invalid line is always skipped with
processing of the remaining lines unaffected. -/
theorem processLines_tolerant (cid : Int) (lines : List (Option Json))
    (h : ∀ l ∈ lines, (from_json_line l cid).isOk = true) :
    processLines lines cid =
      .ok (lines.filterMap (fun l => parsedMsg (from_json_line l cid))) ∧
    (lines.filterMap (fun l => parsedMsg (from_json_line l cid))).length =
      lines.countP (fun l => (parsedMsg (from_json_line l cid)).isSome) ∧
    ∀ rest : List (Option Json),
      processLines (none :: rest) cid = processLines rest cid := by
  refine ⟨processLines_ok_of_no_raise cid lines h,
    length_filterMap_eq_countP _ lines, fun rest => rfl⟩

/-- C6 witness: a batch of 100 lines of which 3 are invalid JSON
yields exactly 97 parsed records. -/
theorem processLines_tolerant_witness :
    processLines lines100 1 =
      .ok (lines100.filterMap (fun l => parsedMsg (from_json_line l 1))) ∧
    (lines100.filterMap (fun l => parsedMsg (from_json_line l 1))).length = 97 := by
  have h := processLines_tolerant 1 lines100 (by decide)
  refine ⟨h.1, ?_⟩
  rw [h.2.1]
  decide

/-- C7 counterexample: the line
`{"timestamp": "garbage", "text": "hi"}` is well-formed JSON whose
timestamp field is malformed (not the Z-suffixed UTC format).
`from_json_line` does not return a record with an absent timestamp: the
`ValueError` from `fromisoformat` is caught and the whole line is
rejected (`None` is returned, so no record is produced). -/
theorem from_json_line_rejects_malformed_timestamp :
    from_json_line
      (some (.obj [("timestamp", .str "garbage"), ("text", .str "hi")])) 1 =
      .ok none ∧
    (parsedMsg (from_json_line
      (some (.obj [("timestamp", .str "garbage"), ("text", .str "hi")])) 1)).isSome
      = false :=
  ⟨rfl, rfl⟩

/-- C7 (amended): for an otherwise well-formed object line (its `tags`
value, if present, is an object): an ABSENT timestamp field still
yields a parsed record whose timestamp is absent; a present, non-empty
timestamp string that `fromisoformat` accepts after Z-normalisation —
which includes offset-less, date-only, fractional and non-UTC-offset
forms, none of them Z-suffixed — yields a record with that NON-null
parsed timestamp; and only a present string `fromisoformat` cannot
parse makes `from_json_line` reject the whole line with `None` (skip)
rather than parse it with a null timestamp. -/
theorem from_json_line_timestamp_amended (cid : Int) (kvs : List (String × Json))
    (htags : (match jlookup kvs "tags" with
      | some (.obj _) => true
      | none => true
      | _ => false) = true) :
    ((jlookup kvs "timestamp").isNone = true →
      ∃ m : Msg, from_json_line (some (.obj kvs)) cid = .ok (some m) ∧
        m.timestamp = none) ∧
    (∀ (s : String) (t : Int), jlookup kvs "timestamp" = some (.str s) →
      s ≠ "" → parseIso (pyReplaceZ s) = some t →
      ∃ m : Msg, from_json_line (some (.obj kvs)) cid = .ok (some m) ∧
        m.timestamp = some t) ∧
    (∀ s : String, jlookup kvs "timestamp" = some (.str s) → s ≠ "" →
      parseIso (pyReplaceZ s) = none →
      from_json_line (some (.obj kvs)) cid = .ok none) := by
  refine ⟨?_, ?_, ?_⟩
  · intro hts
    rw [Option.isNone_iff_eq_none] at hts
    rcases htg : jlookup kvs "tags" with _ | j
    · simp only [from_json_line, hts, htg, Option.getD_none, pyTruthy,
        bne_self_eq_false, if_false]
      exact ⟨_, rfl, rfl⟩
    · cases j with
      | obj tkvs =>
        simp only [from_json_line, hts, htg, Option.getD_none, Option.getD_some,
          pyTruthy, bne_self_eq_false, if_false]
        exact ⟨_, rfl, rfl⟩
      | null => simp [htg] at htags
      | bool b => simp [htg] at htags
      | num n => simp [htg] at htags
      | str s => simp [htg] at htags
      | arr l => simp [htg] at htags
  · intro s t hts hne hparse
    have hst : (s != "") = true := bne_iff_ne.mpr hne
    rcases htg : jlookup kvs "tags" with _ | j
    · simp only [from_json_line, hts, htg, Option.getD_none, Option.getD_some,
        pyTruthy, hst, if_true, hparse]
      exact ⟨_, rfl, rfl⟩
    · cases j with
      | obj tkvs =>
        simp only [from_json_line, hts, htg, Option.getD_none, Option.getD_some,
          pyTruthy, hst, if_true, hparse]
        exact ⟨_, rfl, rfl⟩
      | null => simp [htg] at htags
      | bool b => simp [htg] at htags
      | num n => simp [htg] at htags
      | str s1 => simp [htg] at htags
      | arr l => simp [htg] at htags
  · intro s hts hne hparse
    have hst : (s != "") = true := bne_iff_ne.mpr hne
    simp only [from_json_line, hts, Option.getD_some, pyTruthy, hst, if_true,
      hparse]

/-- C7 witness: a line with no timestamp field parses with an absent
timestamp, and a line whose timestamp `2024-03-15T09:00:00` is not
Z-suffixed still parses with that non-null timestamp. -/
theorem from_json_line_timestamp_amended_witness :
    (∃ m : Msg,
      from_json_line (some (.obj [("text", .str "yo")])) 1 = .ok (some m) ∧
        m.timestamp = none) ∧
    (∃ m : Msg,
      from_json_line
          (some (.obj [("timestamp", .str "2024-03-15T09:00:00")])) 1 =
        .ok (some m) ∧
        m.timestamp = some (toSecs ⟨2024, 3, 15, 9, 0, 0⟩)) := by
  constructor
  · exact (from_json_line_timestamp_amended 1 [("text", .str "yo")]
      (by decide)).1 (by decide)
  · exact (from_json_line_timestamp_amended 1
      [("timestamp", .str "2024-03-15T09:00:00")] (by decide)).2.1
      "2024-03-15T09:00:00" (toSecs ⟨2024, 3, 15, 9, 0, 0⟩) rfl
      (by decide) (by decide)

/-- Chunked folding is plain folding (fuel-indexed induction matching
`listChunks`). -/
theorem listChunks_foldl_fuel {β : Type} (f : β → Msg → β) :
    ∀ (fuel : Nat) (l : List Msg), l.length ≤ fuel → ∀ (k : Nat) (acc : β),
      (listChunks l k).foldl (fun a c => c.foldl f a) acc = l.foldl f acc := by
  intro fuel
  induction fuel with
  | zero =>
    intro l hl k acc
    have h0 : l = [] := List.length_eq_zero.mp (Nat.le_zero.mp hl)
    subst h0
    rw [listChunks]
    simp
  | succ n ih =>
    intro l hl k acc
    rw [listChunks]
    by_cases hc : (l.isEmpty || k == 0) = true
    · rw [dif_pos hc]
      by_cases he : l.isEmpty
      · have h0 : l = [] := List.isEmpty_iff.mp he
        subst h0
        simp
      · simp [he]
    · rw [dif_neg hc]
      rw [Bool.or_eq_true, not_or, List.isEmpty_iff, beq_iff_eq] at hc
      have hlen : (l.drop k).length ≤ n := by
        rw [List.length_drop]
        have h1 : 1 ≤ l.length := List.length_pos.mpr hc.1
        have h2 : 1 ≤ k := Nat.pos_of_ne_zero hc.2
        omega
      rw [List.foldl_cons, ih (l.drop k) hlen k ((l.take k).foldl f acc),
        ← List.foldl_append, List.take_append_drop]

/-- On a nonempty batch, `insert_messages_batch` is the plain
per-message loop over the timestamp-sorted messages. -/
theorem insert_messages_batch_eq_foldl (store : Store) (messages : List Msg)
    (cid : Int) (bs : Nat) (h : messages.isEmpty = false) :
    insert_messages_batch store messages cid bs =
      (pySort messages).foldl (insertOne cid) ⟨0, none, store⟩ := by
  unfold insert_messages_batch
  rw [h]
  exact listChunks_foldl_fuel (insertOne cid) (pySort messages).length
    (pySort messages) (Nat.le_refl _) bs ⟨0, none, store⟩

/-- Membership is preserved by the stable insertion step. -/
theorem mem_pyInsertSorted (m a : Msg) :
    ∀ l : List Msg, a ∈ pyInsertSorted m l ↔ a = m ∨ a ∈ l := by
  intro l
  induction l with
  | nil => simp [pyInsertSorted]
  | cons y ys ih =>
    by_cases hle : pySortKey m ≤ pySortKey y
    · simp [pyInsertSorted, hle]
    · simp only [pyInsertSorted, hle, if_false, List.mem_cons, ih]
      tauto

/-- The session's sort is a reordering: membership is unchanged. -/
theorem mem_pySort (a : Msg) : ∀ l : List Msg, a ∈ pySort l ↔ a ∈ l := by
  intro l
  induction l with
  | nil => simp [pySort]
  | cons x xs ih =>
    simp only [pySort, mem_pyInsertSorted, ih, List.mem_cons]

/-- A candidate that carries a timestamp never trips the NOT NULL
constraint, so the flush-level step agrees with the session-level
step. -/
theorem insertOneDb_ok (cid : Int) (acc : BatchAcc) (m : Msg)
    (h : m.timestamp.isSome = true) :
    insertOneDb cid acc m = .ok (insertOne cid acc m) := by
  unfold insertOneDb insertOne
  cases hf : findExisting acc.store cid m with
  | some r => rfl
  | none =>
    cases hts : m.timestamp with
    | none => rw [hts] at h; simp at h
    | some ts => simp [hts]

/-- On a list of timestamped candidates the constrained loop succeeds
and computes exactly the session-level fold. -/
theorem insertLoopDb_ok (cid : Int) :
    ∀ (L : List Msg) (acc : BatchAcc),
      (∀ m ∈ L, m.timestamp.isSome = true) →
      insertLoopDb cid acc L = .ok (L.foldl (insertOne cid) acc) := by
  intro L
  induction L with
  | nil => intro acc _; rfl
  | cons x xs ih =>
    intro acc h
    rw [insertLoopDb, insertOneDb_ok cid acc x (h x (List.mem_cons_self x xs)),
      List.foldl_cons]
    exact ih (insertOne cid acc x) (fun m hm => h m (List.mem_cons_of_mem x hm))

/-- On batches whose records all carry timestamps — every batch the
NOT NULL constraint admits — the constrained writer returns exactly the
session-level writer's result, so the dedup and counting theorems about
`insert_messages_batch` describe the program on its admissible
domain. -/
theorem insert_messages_batch_db_agrees (store : Store) (messages : List Msg)
    (cid : Int) (bs : Nat) (h : ∀ m ∈ messages, m.timestamp.isSome = true) :
    insert_messages_batch_db store messages cid bs =
      .ok (insert_messages_batch store messages cid bs) := by
  by_cases he : messages.isEmpty
  · simp [insert_messages_batch_db, insert_messages_batch, he]
  · have he' : messages.isEmpty = false := Bool.not_eq_true _ ▸ Bool.of_not_eq_true he
    rw [insert_messages_batch_eq_foldl store messages cid bs he']
    unfold insert_messages_batch_db
    rw [he']
    simp only [Bool.false_eq_true, if_false]
    exact insertLoopDb_ok cid (pySort messages) ⟨0, none, store⟩
      (fun m hm => h m ((mem_pySort m messages).mp hm))

/-- C9: the claim — a non-duplicate timestampless record is still
inserted and never blocks checkpoint advancement — states the spec's
intent (§4.4), an intent the loop's own code shares (the
`datetime.min` sort-key fallback and the `if message.timestamp:` guard
on the running maximum both exist to handle None timestamps); but the
schema declares the `timestamp` column `nullable=False`
(models.py:66), so flushing such a record raises `IntegrityError`. At
the failing input — an empty store and a batch holding the single
timestampless non-duplicate record `msgC9` — the commit raises instead
of inserting, aborting the window before any checkpoint advance. -/
theorem insert_batch_null_timestamp_aborts :
    msgC9.timestamp = none ∧
    findExisting [] 0 msgC9 = none ∧
    insert_messages_batch_db [] [msgC9] 0 1000 = .exn .integrityError :=
  ⟨rfl, rfl, rfl⟩

end TwitchMonkey
